import Mathlib

/-!
Shallow embedding of the core of the secure-rag-system repository:
the faithfulness scorer (`src/evaluation/faithfulness.py`), the latency
statistics of the evaluation harness (`src/evaluation/metrics.py`), and the
generation orchestrator (`src/generation/rag_pipeline.py`).

Modelling conventions:
  * Python floats are modelled as `ℚ`; `round(x, k)` is modelled by
    `roundTo k` (round half up on exact rationals — Python's float
    rounding agrees off representation midpoints).
  * The sentence-transformer embedding model is an abstract collaborator,
    a field `embed : String → List ℚ`; `model.encode(texts)` encodes each
    text independently, so it is modelled by mapping `embed`.
  * The non-determinism of the generation collaborator across calls is
    modelled by indexing `llm_fn` with the call number.
  * Wall-clock fields (request id, timestamps, `latency_ms`) and the
    file-append audit sink are input/output effects outside the model;
    instead the model of `run` counts the generation calls it makes in
    `llm_calls`, which is what the written audit trail records.
  * Regular-expression helpers are translated as direct scanners over the
    character list, with the exact semantics of the Python patterns on
    ASCII text (for `\b`, a word character is a letter, digit or
    underscore, as in Python's `re`).
-/

/-- Model of Python's `round(x, k)` on exact rationals: round half up. -/
def roundTo (k : ℕ) (x : ℚ) : ℚ :=
  ((⌊x * (10 : ℚ) ^ k + 1 / 2⌋ : ℤ) : ℚ) / (10 : ℚ) ^ k

/-- `round(x, 4)`, used throughout `faithfulness.py` and `rag_pipeline.py`. -/
def round4 (x : ℚ) : ℚ := roundTo 4 x

/-- `round(x, 2)`, used by `metrics.latency_percentiles`. -/
def round2 (x : ℚ) : ℚ := roundTo 2 x

/-- Maximal runs of characters satisfying `p`, in order: the model of
`re.findall` for a character-class-plus pattern. `cur` accumulates the
current run in reverse. -/
def runsOfAux (p : Char → Bool) : List Char → List Char → List String
  | [], cur => if cur.isEmpty then [] else [String.mk cur.reverse]
  | c :: cs, cur =>
    if p c then runsOfAux p cs (c :: cur)
    else if cur.isEmpty then runsOfAux p cs []
    else String.mk cur.reverse :: runsOfAux p cs []

/-- The character list of Python `text.lower()` (ASCII model). -/
def lowerChars (text : String) : List Char :=
  text.data.map Char.toLower

/-- Python `str.strip()`: drop leading and trailing whitespace. -/
def pyStrip (s : String) : String :=
  String.mk (((s.data.dropWhile Char.isWhitespace).reverse.dropWhile
    Char.isWhitespace).reverse)

/-- Python `s.endswith("?")`: the last character is a question mark. -/
def endsWithQmark (s : String) : Bool :=
  match s.data.getLast? with
  | some c => c == '?'
  | none => false

/-- Python `s[:n]`: the first `n` characters. -/
def strTake (s : String) (n : ℕ) : String :=
  String.mk (s.data.take n)

/-- `re.findall(r"[a-z0-9]+", text.lower())` of `faithfulness._tokenise`. -/
def findallWords (text : String) : List String :=
  runsOfAux (fun c => c.isLower || c.isDigit) (lowerChars text) []

/-- `faithfulness._tokenise`: lowercase word-token set. -/
def tokenise (text : String) : Finset String :=
  (findallWords text).toFinset

/-- `re.findall(r"[a-z]+", response.lower())` of
`FaithfulnessScorer._hedge_penalty` (letters only, no digits). -/
def findallAlpha (text : String) : List String :=
  runsOfAux (fun c => c.isLower) (lowerChars text) []

/-- Python `str.split()` with no argument: maximal runs of non-whitespace. -/
def whitespaceTokens (s : String) : List String :=
  runsOfAux (fun c => !c.isWhitespace) s.data []

/-- A word character for Python's `\b` (ASCII): letter, digit or underscore. -/
def isWordCharPy (c : Char) : Bool :=
  c.isAlpha || c.isDigit || c = '_'

/-- A `\b` boundary holds after the match when the next character is not a
word character (or the text ends). -/
def atBoundary : List Char → Bool
  | [] => true
  | c :: _ => !isWordCharPy c

/-- Maximal parse of `(?:,\d{3})*`: the comma groups (each exactly three
digits), and the rest of the text. -/
def commaGroups : List Char → List (List Char) × List Char
  | ',' :: a :: b :: c :: rest =>
    if a.isDigit && b.isDigit && c.isDigit then
      let (gs, r) := commaGroups rest
      ([a, b, c] :: gs, r)
    else ([], ',' :: a :: b :: c :: rest)
  | rest => ([], rest)

/-- The text matched by `\d+(?:,\d{3})*(?:\.\d+)?` from its parsed parts. -/
def numToken (intPart : List Char) (gs : List (List Char)) (frac : Option (List Char)) : String :=
  String.mk (intPart ++ gs.foldr (fun g acc => ',' :: (g ++ acc)) [] ++
    (match frac with | some f => '.' :: f | none => []))

/-- Backtracking over the comma groups when the trailing `\b` fails: the
regex drops the last `,\d{3}` group, after which the next character is a
comma (not a word character), so the boundary then holds. -/
def dropNumGroups (intPart : List Char) (gs : List (List Char)) (rest : List Char) :
    Option (String × List Char) :=
  if atBoundary rest then some (numToken intPart gs none, rest)
  else
    match gs.getLast? with
    | some g => some (numToken intPart gs.dropLast none, ',' :: (g ++ rest))
    | none => none

/-- One attempt of `NUMBER_RE` (`\b\d+(?:,\d{3})*(?:\.\d+)?\b`) at the start
of `chars` (the leading `\b` was already checked by the scanner). Returns
the matched text and the remaining characters. The greedy optional decimal
part is tried first; on boundary failure it is dropped whole (shortening
its digits can never restore the boundary, the next character would be a
digit), then comma groups are dropped. -/
def matchNumAt (chars : List Char) : Option (String × List Char) :=
  let intPart := chars.takeWhile Char.isDigit
  if intPart.isEmpty then none
  else
    let r0 := chars.drop intPart.length
    let (gs, r1) := commaGroups r0
    let tryDec : Option (String × List Char) :=
      match r1 with
      | '.' :: ds =>
        let frac := ds.takeWhile Char.isDigit
        if !frac.isEmpty && atBoundary (ds.drop frac.length) then
          some (numToken intPart gs (some frac), ds.drop frac.length)
        else none
      | _ => none
    match tryDec with
    | some res => some res
    | none => dropNumGroups intPart gs r1

/-- Non-overlapping left-to-right scan of `NUMBER_RE.findall`. `prevW` says
whether the previous character was a word character (the leading `\b`).
`fuel` only bounds the recursion; every step consumes at least one
character, so `fuel = chars.length` at the entry point is always enough. -/
def scanNumbers : ℕ → List Char → Bool → List String
  | 0, _, _ => []
  | _, [], _ => []
  | fuel + 1, c :: cs, prevW =>
    if !prevW && c.isDigit then
      match matchNumAt (c :: cs) with
      | some (m, rest) => m :: scanNumbers fuel rest true
      | none => scanNumbers fuel cs (isWordCharPy c)
    else scanNumbers fuel cs (isWordCharPy c)

/-- `faithfulness._extract_numbers`: the set of matches of `NUMBER_RE` with
the thousands commas removed. -/
def extract_numbers (text : String) : Finset String :=
  ((scanNumbers text.data.length text.data false).map
    (fun m => String.mk (m.data.filter (fun c => c ≠ ',')))).toFinset

/-- `SENTENCE_RE.split` (`(?<=[.!?])\s+`): split at every maximal whitespace
run whose preceding character is `.`, `!` or `?`. `cur` holds the current
piece in reverse; `fuel` only bounds the recursion (each step consumes at
least one character, so `fuel = chars.length` is always enough). -/
def splitSentencesAux : ℕ → List Char → List Char → List (List Char)
  | _, [], cur => [cur.reverse]
  | 0, cs, cur => [cur.reverse ++ cs]
  | fuel + 1, c :: cs, cur =>
    if c.isWhitespace &&
        (match cur with
         | p :: _ => p == '.' || p == '!' || p == '?'
         | [] => false) then
      cur.reverse :: splitSentencesAux fuel (cs.dropWhile Char.isWhitespace) []
    else splitSentencesAux fuel cs (c :: cur)

/-- `SENTENCE_RE.split(text)` as a list of strings. -/
def splitSentences (text : String) : List String :=
  (splitSentencesAux text.data.length text.data []).map String.mk

/-- `faithfulness._split_claims`: split into declarative sentences, dropping
questions and fragments under four whitespace-separated words; each kept
sentence is stripped. -/
def split_claims (text : String) : List String :=
  (splitSentences (pyStrip text)).filterMap (fun s =>
    let t := pyStrip s
    if !t.data.isEmpty && !endsWithQmark t && (whitespaceTokens s).length ≥ 4 then
      some t
    else none)

/-- `faithfulness.CLAIM_SEM_THRESHOLD`. -/
def CLAIM_SEM_THRESHOLD : ℚ := 55 / 100

/-- `faithfulness.CLAIM_LEX_THRESHOLD`. -/
def CLAIM_LEX_THRESHOLD : ℚ := 35 / 100

/-- `faithfulness.HEDGE_WORDS` (as listed in the source; the two-word entry
"not sure" can never equal a single word token). -/
def HEDGE_WORDS : List String :=
  ["perhaps", "maybe", "possibly", "might", "could", "probably",
   "likely", "seems", "appears", "suggests", "uncertain", "unclear",
   "not sure", "unsure"]

/-- `HEDGE_WORDS` as the set it is kept as in the source. -/
def hedgeWordSet : Finset String := HEDGE_WORDS.toFinset

/-- `np.dot` on the embedding vectors (equal-length lists in the source). -/
def dot (v w : List ℚ) : ℚ :=
  ((v.zip w).map (fun p => p.1 * p.2)).sum

/-- Python `max` over a non-empty list (`0` on `[]`, a case the source
guards away before calling `max`). -/
def listMax : List ℚ → ℚ
  | [] => 0
  | x :: xs => xs.foldl max x

/-- `np.argmax`: the first index of the maximum (`0` on `[]`, a case the
source guards away). -/
def argmaxIdx : List ℚ → ℕ
  | [] => 0
  | x :: xs =>
    (xs.foldl
      (fun acc y =>
        if y > acc.2.1 then (acc.2.2, y, acc.2.2 + 1)
        else (acc.1, acc.2.1, acc.2.2 + 1))
      ((0 : ℕ), x, (1 : ℕ))).1

/-- `faithfulness.FaithfulnessScorer`: the abstract embedding collaborator
and the construction-time configuration (the `weights` dict's three keys
`semantic`, `coverage`, `numeric`, and `hedge_max_penalty`). -/
structure FaithfulnessScorer where
  embed : String → List ℚ
  w_semantic : ℚ
  w_coverage : ℚ
  w_numeric : ℚ
  hedge_max_penalty : ℚ

/-- `FaithfulnessScorer._semantic_similarity`: max cosine similarity between
the response embedding and any single chunk embedding, floored at `0.0`
(`max(max(sims), 0.0) if sims else 0.0`). -/
def FaithfulnessScorer.semantic_similarity (s : FaithfulnessScorer)
    (response : String) (chunks : List String) : ℚ :=
  let resp_emb := s.embed response
  let sims := chunks.map (fun c => dot resp_emb (s.embed c))
  if sims.isEmpty then 0 else max (listMax sims) 0

/-- `FaithfulnessScorer._claim_coverage`: the fraction of declarative claims
that are supported (best semantic similarity at least
`CLAIM_SEM_THRESHOLD`, or lexical overlap at least `CLAIM_LEX_THRESHOLD`);
`1.0` when there are no claims. -/
def FaithfulnessScorer.claim_coverage (s : FaithfulnessScorer)
    (response : String) (chunks : List String) (combined : String) : ℚ :=
  let claims := split_claims response
  if claims.isEmpty then 1
  else
    let ctx_tokens := tokenise combined
    let claim_embs := claims.map s.embed
    let chunk_embs := chunks.map s.embed
    let supported :=
      ((claims.zip claim_embs).filter (fun ce =>
        let sims := chunk_embs.map (fun ch => dot ce.2 ch)
        let best_sim := if sims.isEmpty then 0 else listMax sims
        let claim_toks := tokenise ce.1
        let lex_overlap := ((claim_toks ∩ ctx_tokens).card : ℚ) /
          ((max claim_toks.card 1 : ℕ) : ℚ)
        decide (best_sim ≥ CLAIM_SEM_THRESHOLD ∨
          lex_overlap ≥ CLAIM_LEX_THRESHOLD))).length
    (supported : ℚ) / (claims.length : ℚ)

/-- `FaithfulnessScorer._numeric_consistency`: fraction of response numbers
that also appear (comma-normalised) in the context; `1.0` when the response
has no numbers. -/
def numeric_consistency (response : String) (combined_context : String) : ℚ :=
  let resp_nums := extract_numbers response
  if resp_nums = ∅ then 1
  else
    let ctx_nums := extract_numbers combined_context
    ((resp_nums ∩ ctx_nums).card : ℚ) / (resp_nums.card : ℚ)

/-- `FaithfulnessScorer._hedge_penalty`: zero when the semantic evidence is
decent (`semantic_sim ≥ 0.55`); otherwise
`round(min(hedge_max_penalty, hedge_hits / max(len(words), 1) * 0.25 *
(1 - semantic_sim)), 4)` over the set `words` of distinct alphabetic tokens
of the lowercased response. -/
def FaithfulnessScorer.hedge_penalty (s : FaithfulnessScorer)
    (response : String) (semantic_sim : ℚ) : ℚ :=
  if semantic_sim ≥ 55 / 100 then 0
  else
    let words := (findallAlpha response).toFinset
    let hedge_hits := (words ∩ hedgeWordSet).card
    let hedgeFrac := (hedge_hits : ℚ) / ((max words.card 1 : ℕ) : ℚ)
    round4 (min s.hedge_max_penalty (hedgeFrac * (25 / 100) * (1 - semantic_sim)))

/-- `FaithfulnessScorer.score`: `0.0` on empty response or empty context;
otherwise the weighted sum of the three signals, minus the hedge penalty,
clamped to `[0, 1]` and rounded to four decimals. -/
def FaithfulnessScorer.score (s : FaithfulnessScorer)
    (response : String) (context_chunks : List String) : ℚ :=
  if response = "" ∨ context_chunks = [] then 0
  else
    let combined := String.intercalate "\n" context_chunks
    let sem := s.semantic_similarity response context_chunks
    let cov := s.claim_coverage response context_chunks combined
    let num := numeric_consistency response combined
    let raw := s.w_semantic * sem + s.w_coverage * cov + s.w_numeric * num
    let penalty := s.hedge_penalty response sem
    round4 (max 0 (min 1 (raw - penalty)))

/-- One entry of the per-claim detail list built by
`FaithfulnessScorer._score_claims`. -/
structure ClaimDetail where
  claim : String
  supported : Bool
  best_chunk_idx : ℕ
  semantic_sim : ℚ
  lexical_overlap : ℚ
  source_snippet : Option String
deriving DecidableEq

/-- `FaithfulnessScorer._score_claims`: per-claim grounding detail (success
path of the source; the embedding-failure branch is an error path outside
the model). -/
def FaithfulnessScorer.score_claims (s : FaithfulnessScorer)
    (response : String) (chunks : List String) (combined : String) : List ClaimDetail :=
  let claims := split_claims response
  if claims.isEmpty then []
  else
    let ctx_tokens := tokenise combined
    let claim_embs := claims.map s.embed
    let chunk_embs := chunks.map s.embed
    (claims.zip claim_embs).map (fun ce =>
      let sims := chunk_embs.map (fun ch => dot ce.2 ch)
      let best_idx := argmaxIdx sims
      let best_sim := sims.getD best_idx 0
      let claim_toks := tokenise ce.1
      let lex_overlap := ((claim_toks ∩ ctx_tokens).card : ℚ) /
        ((max claim_toks.card 1 : ℕ) : ℚ)
      let supported := decide (best_sim ≥ CLAIM_SEM_THRESHOLD ∨
        lex_overlap ≥ CLAIM_LEX_THRESHOLD)
      { claim := strTake ce.1 120,
        supported := supported,
        best_chunk_idx := best_idx,
        semantic_sim := round4 best_sim,
        lexical_overlap := round4 lex_overlap,
        source_snippet := if supported then some (strTake (chunks.getD best_idx "") 100) else none })

/-- The dict returned by `FaithfulnessScorer.score_detailed`: exactly the
keys `overall`, `semantic`, `coverage`, `numeric`, `penalty`, `claims`. -/
structure FaithfulnessReport where
  overall : ℚ
  semantic : ℚ
  coverage : ℚ
  numeric : ℚ
  penalty : ℚ
  claims : List ClaimDetail
deriving DecidableEq

/-- `FaithfulnessScorer.score_detailed`: the same signals as `score`, plus
the per-claim detail. -/
def FaithfulnessScorer.score_detailed (s : FaithfulnessScorer)
    (response : String) (context_chunks : List String) : FaithfulnessReport :=
  if response = "" ∨ context_chunks = [] then
    { overall := 0, semantic := 0, coverage := 0, numeric := 0, penalty := 0, claims := [] }
  else
    let combined := String.intercalate "\n" context_chunks
    let sem := s.semantic_similarity response context_chunks
    let cov := s.claim_coverage response context_chunks combined
    let num := numeric_consistency response combined
    let penalty := s.hedge_penalty response sem
    let raw := s.w_semantic * sem + s.w_coverage * cov + s.w_numeric * num
    let overall := round4 (max 0 (min 1 (raw - penalty)))
    { overall := overall,
      semantic := round4 sem,
      coverage := round4 cov,
      numeric := round4 num,
      penalty := round4 penalty,
      claims := s.score_claims response context_chunks combined }

/-- Insertion into a sorted list, for the model of Python `sorted`. -/
def insertSorted (x : ℚ) : List ℚ → List ℚ
  | [] => [x]
  | y :: ys => if x ≤ y then x :: y :: ys else y :: insertSorted x ys

/-- Model of Python `sorted` (ascending) on rationals. -/
def sortList : List ℚ → List ℚ
  | [] => []
  | x :: xs => insertSorted x (sortList xs)

/-- The record returned by `metrics.latency_percentiles`. -/
structure LatencyStats where
  p50 : ℚ
  p90 : ℚ
  p95 : ℚ
  p99 : ℚ
  mean : ℚ
deriving DecidableEq

/-- The nearest-rank index of `metrics.latency_percentiles._percentile`:
`min(int(pct / 100.0 * (n - 1)), n - 1)` (`int` truncates; the product is
non-negative, so it is the floor). -/
def percentileIdx (pct : ℚ) (n : ℕ) : ℕ :=
  min (Int.toNat ⌊pct / 100 * ((n - 1 : ℕ) : ℚ)⌋) (n - 1)

/-- `metrics.latency_percentiles`: p50/p90/p95/p99/mean of a sorted copy,
each rounded to two decimals; all zeros on the empty list. -/
def latency_percentiles (latencies_ms : List ℚ) : LatencyStats :=
  if latencies_ms = [] then
    { p50 := 0, p90 := 0, p95 := 0, p99 := 0, mean := 0 }
  else
    let sorted_lat := sortList latencies_ms
    let n := sorted_lat.length
    let pctl := fun (pct : ℚ) => round2 (sorted_lat.getD (percentileIdx pct n) 0)
    { p50 := pctl 50,
      p90 := pctl 90,
      p95 := pctl 95,
      p99 := pctl 99,
      mean := round2 (sorted_lat.sum / (n : ℚ)) }

/-- `rag_pipeline.RetrievedChunk` (metadata as an association list). -/
structure RetrievedChunk where
  chunk_id : String
  text : String
  score : ℚ
  metadata : List (String × String)
deriving DecidableEq

/-- The inner lists of the ChromaDB-style query result consumed by
`RAGPipeline._retrieve` (`documents[0]`, `distances[0]`, `metadatas[0]`),
positionally aligned. -/
structure StoreResult where
  documents : List String
  distances : List ℚ
  metadatas : List (List (String × String))
deriving DecidableEq

/-- `rag_pipeline.SYSTEM_PROMPT`. -/
def SYSTEM_PROMPT : String :=
  "You are a precise, factual assistant integrated into an enterprise RAG system.\n" ++
  "Your ONLY source of truth is the context provided below.\n\n" ++
  "RULES:\n" ++
  "1. Answer ONLY from the given context.  Do NOT hallucinate or invent facts.\n" ++
  "2. If the context does not contain enough information, say exactly:\n" ++
  "   \"I don\x27t have enough information in the provided documents to answer this.\"\n" ++
  "3. When citing a fact, reference which chunk it came from (e.g. [Chunk 1]).\n" ++
  "4. Be concise.  Do not repeat yourself.\n" ++
  "5. Numbers, dates, and names MUST match the context exactly."

/-- `rag_pipeline.USER_PROMPT_TEMPLATE.format(context=..., question=...)`. -/
def userPrompt (context : String) (question : String) : String :=
  "--- RETRIEVED CONTEXT ---\n" ++ context ++ "\n--- END CONTEXT ---\n\n" ++
  "Question: " ++ question ++ "\n\nAnswer (cite chunk sources):"

/-- `RAGPipeline.FALLBACK`. -/
def FALLBACK : String :=
  "I was unable to generate a reliable answer from the available documents. " ++
  "Please rephrase your question or consult the source documents directly."

/-- `rag_pipeline.RAGPipeline`: configuration and collaborators for one run.
`llm_fn` is the injected generation collaborator, indexed by the call
number to model its non-determinism across calls; `store` is the vector
store's response for the query under consideration (the store is consumed
as a query interface). `audit_log_path` (file output) is outside the
model. -/
structure RAGPipeline where
  llm_fn : ℕ → String → String → String
  scorer : FaithfulnessScorer
  store : StoreResult
  faithfulness_threshold : ℚ
  max_retries : ℕ
  top_k : ℕ
  max_context_chars : ℕ
  fallback_message : String

/-- The `for idx, (doc, dist, meta) in enumerate(zip(...))` loop of
`RAGPipeline._retrieve`: build one `RetrievedChunk` per aligned triple,
converting each distance to a similarity `round(1 / (1 + dist), 4)`. -/
def retrieveAux (idx : ℕ) : List (String × ℚ × List (String × String)) → List RetrievedChunk
  | [] => []
  | x :: rest =>
    { chunk_id := "chunk_" ++ toString idx,
      text := x.1,
      score := round4 (1 / (1 + x.2.1)),
      metadata := x.2.2 } :: retrieveAux (idx + 1) rest

/-- `RAGPipeline._retrieve` (success path): normalise the store result into
`RetrievedChunk`s; a falsy `metadatas` is replaced by one empty dict per
document (the exception path of the source returns `[]` and is covered by
taking `store` as the already-received response). -/
def retrieveChunks (store : StoreResult) : List RetrievedChunk :=
  let metadatas :=
    if store.metadatas.isEmpty then
      List.replicate store.documents.length ([] : List (String × String))
    else store.metadatas
  retrieveAux 0 (store.documents.zip (store.distances.zip metadatas))

/-- The first `k` decimal digits of the fraction `rem / den` (long
division), most significant first. -/
def fracDigits : ℕ → ℕ → ℕ → List Char
  | 0, _, _ => []
  | k + 1, rem, den =>
    Nat.digitChar (rem * 10 / den) :: fracDigits k (rem * 10 % den) den

/-- Drop trailing zeros from a digit run, keeping at least one digit (the
way Python renders `1.0`, `0.5`, `0.3333`). -/
def stripTrailingZeros (l : List Char) : List Char :=
  let r := l.reverse.dropWhile (fun c => c == '0')
  if r.isEmpty then ['0'] else r.reverse

/-- Python's `repr`/f-string rendering of a non-negative float that carries
at most four decimal places: the exact decimal expansion with trailing
zeros stripped and at least one fractional digit. -/
def pyFloatReprNonneg (q : ℚ) : String :=
  let n := q.num.toNat
  let d := q.den
  toString (n / d) ++ "." ++ String.mk (stripTrailingZeros (fracDigits 4 (n % d) d))

/-- Python's rendering of `chunk.score` inside the f-string of
`RAGPipeline._format_context`. Every score the pipeline stores is a
`round(x, 4)` value (`_retrieve` builds them as `round(1/(1+dist), 4)`),
and for such floats Python's shortest-round-trip repr is exactly the
decimal expansion with trailing zeros stripped, one fractional digit kept
(`1.0`, `0.5`, `0.9091`); the model renders those four digits. -/
def pyFloatRepr (q : ℚ) : String :=
  if q < 0 then "-" ++ pyFloatReprNonneg (-q) else pyFloatReprNonneg q

/-- The labelled segment `RAGPipeline._format_context` builds for one chunk:
`f"[Chunk {chunk.chunk_id}] (relevance {chunk.score})\n{chunk.text}"`, the
score rendered as Python renders the float. -/
def chunkSegment (c : RetrievedChunk) : String :=
  "[Chunk " ++ c.chunk_id ++ "] (relevance " ++ pyFloatRepr c.score ++ ")\n" ++ c.text

/-- The loop of `RAGPipeline._format_context`: keep whole segments while
they fit the remaining budget, stop at the first segment that does not. -/
def formatParts : ℕ → List RetrievedChunk → List String
  | _, [] => []
  | budget, c :: cs =>
    let segment := chunkSegment c
    if segment.length > budget then []
    else segment :: formatParts (budget - segment.length) cs

/-- `RAGPipeline._format_context`: the kept segments joined by a blank
line. -/
def formatContext (max_context_chars : ℕ) (chunks : List RetrievedChunk) : String :=
  String.intercalate "\n\n" (formatParts max_context_chars chunks)

/-- The loop state of `RAGPipeline.run`'s generate-and-check loop
(`raw_answer`, `faithfulness`, `passed`, `retries_used`), plus the
instrumented count of generation calls. -/
structure LoopState where
  raw_answer : String
  faithfulness : ℚ
  passed : Bool
  retries_used : ℕ
  llm_calls : ℕ
deriving DecidableEq

/-- `for attempt in range(max_retries + 1)` of `RAGPipeline.run`: call the
generation collaborator, score the output, accept and break at the
threshold, otherwise set `retries_used = attempt + 1` and continue.
`remaining` counts the iterations still to run. -/
def genLoop (p : RAGPipeline) (chunk_texts : List String) (user_prompt : String) :
    ℕ → ℕ → LoopState → LoopState
  | _, 0, st => st
  | attempt, remaining + 1, st =>
    let raw := p.llm_fn attempt SYSTEM_PROMPT user_prompt
    let faith := p.scorer.score raw chunk_texts
    if faith ≥ p.faithfulness_threshold then
      { st with
          raw_answer := raw, faithfulness := faith, passed := true,
          llm_calls := st.llm_calls + 1 }
    else
      genLoop p chunk_texts user_prompt (attempt + 1) remaining
        { st with
            raw_answer := raw, faithfulness := faith, passed := false,
            retries_used := attempt + 1, llm_calls := st.llm_calls + 1 }

/-- The caller-visible fields of `rag_pipeline.RAGResponse` (request id,
latency and timestamps are wall-clock effects outside the model; the audit
log's generation entries are counted by `llm_calls`). -/
structure RunResult where
  query : String
  answer : String
  raw_answer : String
  chunks_used : List RetrievedChunk
  faithfulness_score : ℚ
  passed_faithfulness : Bool
  retries_used : ℕ
  llm_calls : ℕ
deriving DecidableEq

/-- `RAGPipeline.run`: retrieve, short-circuit to the fallback on zero
chunks, otherwise run the generate-and-check loop and substitute the
fallback when no attempt passed. Field values mirror `_build_response`. -/
def RAGPipeline.run (p : RAGPipeline) (query : String) : RunResult :=
  let chunks := retrieveChunks p.store
  if chunks = [] then
    { query := query,
      answer := p.fallback_message,
      raw_answer := p.fallback_message,
      chunks_used := chunks,
      faithfulness_score := round4 0,
      passed_faithfulness := false,
      retries_used := 0,
      llm_calls := 0 }
  else
    let context_str := formatContext p.max_context_chars chunks
    let user_prompt := userPrompt context_str query
    let chunk_texts := chunks.map RetrievedChunk.text
    let st := genLoop p chunk_texts user_prompt 0 (p.max_retries + 1)
      { raw_answer := "", faithfulness := 0, passed := false, retries_used := 0, llm_calls := 0 }
    { query := query,
      answer := if st.passed then st.raw_answer else p.fallback_message,
      raw_answer := st.raw_answer,
      chunks_used := chunks,
      faithfulness_score := round4 st.faithfulness,
      passed_faithfulness := st.passed,
      retries_used := st.retries_used,
      llm_calls := st.llm_calls }

/-- The chunk texts `RAGPipeline.run` scores against. -/
def RAGPipeline.chunkTexts (p : RAGPipeline) : List String :=
  (retrieveChunks p.store).map RetrievedChunk.text

/-- The user prompt `RAGPipeline.run` sends on every attempt. -/
def RAGPipeline.userPromptFor (p : RAGPipeline) (query : String) : String :=
  userPrompt (formatContext p.max_context_chars (retrieveChunks p.store)) query

/-- The faithfulness score of generation attempt `k` of `RAGPipeline.run`
(the prompt is not mutated between retries). -/
def RAGPipeline.attemptScore (p : RAGPipeline) (query : String) (k : ℕ) : ℚ :=
  p.scorer.score (p.llm_fn k SYSTEM_PROMPT (p.userPromptFor query)) p.chunkTexts

/-- A concrete embedding collaborator for the closed examples (the runs
below only ever score the empty response, which the scorer's emptiness
guard answers before any embedding call). -/
def embedZero : String → List ℚ := fun _ => []

/-- A scorer with the source's default construction parameters
(`DEFAULT_WEIGHTS` 0.40/0.40/0.20, `hedge_max_penalty` 0.10). -/
def scorerDefault : FaithfulnessScorer :=
  { embed := embedZero, w_semantic := 2 / 5, w_coverage := 2 / 5,
    w_numeric := 1 / 5, hedge_max_penalty := 1 / 10 }

/-- A store response with a single document at distance 0. -/
def storeOne : StoreResult :=
  { documents := ["apple"], distances := [0], metadatas := [[]] }

/-- A store response with no documents. -/
def storeEmpty : StoreResult :=
  { documents := [], distances := [], metadatas := [] }

/-- A store response with two documents, used for the context-budget
example. -/
def storeTwo : StoreResult :=
  { documents := ["aaaaa", "bbbbb"], distances := [0, 0], metadatas := [[], []] }

/-- A pipeline whose generation collaborator always returns the empty
string (so every attempt scores 0.0), with `max_retries = 1`. -/
def pipelineOne : RAGPipeline :=
  { llm_fn := fun _ _ _ => "", scorer := scorerDefault, store := storeOne,
    faithfulness_threshold := 7 / 10, max_retries := 1, top_k := 5,
    max_context_chars := 6000, fallback_message := FALLBACK }

/-- As `pipelineOne` but with `max_retries = 0`. -/
def pipelineTwo : RAGPipeline :=
  { llm_fn := fun _ _ _ => "", scorer := scorerDefault, store := storeOne,
    faithfulness_threshold := 7 / 10, max_retries := 0, top_k := 5,
    max_context_chars := 6000, fallback_message := FALLBACK }

/-- The latency list `[1.0 .. 100.0]` of the spec's concrete example. -/
def latencyExample : List ℚ :=
  (List.range 100).map (fun i => ((i + 1 : ℕ) : ℚ))

/-- A pipeline whose vector store returns zero chunks. -/
def pipelineEmpty : RAGPipeline :=
  { llm_fn := fun _ _ _ => "", scorer := scorerDefault, store := storeEmpty,
    faithfulness_threshold := 7 / 10, max_retries := 2, top_k := 5,
    max_context_chars := 6000, fallback_message := FALLBACK }

theorem floor_one_half_eq : ⌊(1 / 2 : ℚ)⌋ = 0 :=
  Int.floor_eq_iff.mpr (by norm_num)

/-- Evaluation rule for `roundTo`: bracketing `x * 10^k + 1/2` between `z`
and `z + 1` determines the rounded value. -/
theorem roundTo_eq (k : ℕ) (x : ℚ) (z : ℤ)
    (hlo : (z : ℚ) ≤ x * (10 : ℚ) ^ k + 1 / 2)
    (hhi : x * (10 : ℚ) ^ k + 1 / 2 < z + 1) :
    roundTo k x = (z : ℚ) / (10 : ℚ) ^ k := by
  unfold roundTo
  rw [Int.floor_eq_iff.mpr ⟨hlo, hhi⟩]

theorem roundTo_nonneg (k : ℕ) (x : ℚ) (hx : 0 ≤ x) : 0 ≤ roundTo k x := by
  unfold roundTo
  apply div_nonneg _ (by positivity)
  have h1 : (0 : ℚ) ≤ x * (10 : ℚ) ^ k + 1 / 2 := by
    have := mul_nonneg hx (by positivity : (0 : ℚ) ≤ (10 : ℚ) ^ k)
    linarith
  have h2 : (0 : ℤ) ≤ ⌊x * (10 : ℚ) ^ k + 1 / 2⌋ := Int.le_floor.mpr (by exact_mod_cast h1)
  exact_mod_cast h2

theorem roundTo_le_one (k : ℕ) (x : ℚ) (hx : x ≤ 1) : roundTo k x ≤ 1 := by
  unfold roundTo
  rw [div_le_one (by positivity)]
  have hcast : (((10 : ℤ) ^ k : ℤ) : ℚ) = (10 : ℚ) ^ k := by push_cast; ring
  have h1 : x * (10 : ℚ) ^ k + 1 / 2 ≤ (((10 : ℤ) ^ k : ℤ) : ℚ) + 1 / 2 := by
    have := mul_le_mul_of_nonneg_right hx (by positivity : (0 : ℚ) ≤ (10 : ℚ) ^ k)
    rw [hcast]
    linarith
  have h2 : ⌊x * (10 : ℚ) ^ k + 1 / 2⌋ ≤ (10 : ℤ) ^ k := by
    have h3 := Int.floor_le_floor h1
    rwa [Int.floor_int_add, floor_one_half_eq, Int.add_zero] at h3
  calc ((⌊x * (10 : ℚ) ^ k + 1 / 2⌋ : ℤ) : ℚ) ≤ (((10 : ℤ) ^ k : ℤ) : ℚ) := by exact_mod_cast h2
    _ = (10 : ℚ) ^ k := hcast

/-- Claim C4: for every response string and every list of context chunks
(and in fact for every scorer configuration), `FaithfulnessScorer.score`
returns a value between 0.0 and 1.0 inclusive: the empty-input guard
returns 0.0, and otherwise the weighted sum minus the penalty is clamped
to `[0, 1]` before rounding, which preserves the interval. -/
theorem score_in_unit_interval (s : FaithfulnessScorer)
    (response : String) (context_chunks : List String) :
    0 ≤ s.score response context_chunks ∧ s.score response context_chunks ≤ 1 := by
  by_cases h : response = "" ∨ context_chunks = []
  · simp [FaithfulnessScorer.score, h]
  · simp only [FaithfulnessScorer.score, if_neg h]
    constructor
    · exact roundTo_nonneg 4 _ (le_max_left _ _)
    · exact roundTo_le_one 4 _ (max_le (by norm_num) (min_le_left _ _))

/-- Claim C9: the scalar returned by `FaithfulnessScorer.score` equals the
`overall` field returned by `FaithfulnessScorer.score_detailed` on the same
inputs — both branches of both functions compute the same signals,
weighted sum, penalty, clamp and rounding. -/
theorem score_eq_score_detailed_overall (s : FaithfulnessScorer)
    (response : String) (context_chunks : List String) :
    s.score response context_chunks = (s.score_detailed response context_chunks).overall := by
  by_cases h : response = "" ∨ context_chunks = []
  · simp [FaithfulnessScorer.score, FaithfulnessScorer.score_detailed, h]
  · simp [FaithfulnessScorer.score, FaithfulnessScorer.score_detailed, h]

/-- Claim C5, counterexample: on the response
"perhaps perhaps alpha beta gamma delta epsilon zeta" with semantic
similarity 0, the fraction of the response's word-tokens (occurrences:
2 of 8) in the hedge lexicon gives the claimed penalty
`min(0.10, 2/8 * 0.25 * (1 - 0)) = 0.0625`, but the code computes the
ratio over the set of distinct words (1 of 7) and returns
`round(1/28, 4) = 0.0357`. -/
theorem hedge_penalty_cex :
    scorerDefault.hedge_penalty "perhaps perhaps alpha beta gamma delta epsilon zeta" 0 ≠
      min scorerDefault.hedge_max_penalty ((2 / 8 : ℚ) * (25 / 100) * (1 - 0)) := by
  have hpen : scorerDefault.hedge_penalty
      "perhaps perhaps alpha beta gamma delta epsilon zeta" 0 = 357 / 10000 := by
    have hcard1 : ((findallAlpha
        "perhaps perhaps alpha beta gamma delta epsilon zeta").toFinset ∩
        hedgeWordSet).card = 1 := by decide
    have hcard2 : (findallAlpha
        "perhaps perhaps alpha beta gamma delta epsilon zeta").toFinset.card = 7 := by
      decide
    simp only [FaithfulnessScorer.hedge_penalty, scorerDefault]
    rw [if_neg (by norm_num)]
    rw [hcard1, hcard2]
    have harg : ((1 : ℕ) : ℚ) / (((max 7 1 : ℕ)) : ℚ) * (25 / 100) * (1 - 0) = 1 / 28 := by
      norm_num
    rw [harg]
    have hmin : min ((1 : ℚ) / 10) ((1 : ℚ) / 28) = 1 / 28 := by
      rw [min_def]
      norm_num
    rw [hmin, round4, roundTo_eq 4 (1 / 28) 357 (by norm_num) (by norm_num)]
    norm_num
  have hrhs : min scorerDefault.hedge_max_penalty ((2 / 8 : ℚ) * (25 / 100) * (1 - 0)) =
      1 / 16 := by
    simp only [scorerDefault]
    rw [min_def]
    norm_num
  rw [hpen, hrhs]
  norm_num

/-- Claim C5 as amended: the hedge penalty is 0 when the semantic
similarity is at least 0.55; otherwise it is
`min(hedge_cap, hedge_ratio * 0.25 * (1 - semantic_sim))` rounded to four
decimals, where the ratio is the number of distinct word-tokens of the
response that belong to the hedge lexicon divided by the number of
distinct word-tokens (at least 1). -/
theorem hedge_penalty_cases (s : FaithfulnessScorer)
    (response : String) (semantic_sim : ℚ) :
    (semantic_sim ≥ 55 / 100 → s.hedge_penalty response semantic_sim = 0) ∧
    (semantic_sim < 55 / 100 → s.hedge_penalty response semantic_sim =
      round4 (min s.hedge_max_penalty
        ((((findallAlpha response).toFinset ∩ hedgeWordSet).card : ℚ) /
          ((max (findallAlpha response).toFinset.card 1 : ℕ) : ℚ) *
          (25 / 100) * (1 - semantic_sim)))) := by
  constructor
  · intro h
    simp [FaithfulnessScorer.hedge_penalty, h]
  · intro h
    simp [FaithfulnessScorer.hedge_penalty, not_le.mpr h]

/-- Claim C8, counterexample: on a response that does contain a declarative
sentence of at least four tokens but with an empty context list,
`score_detailed` returns an empty `claims` list (the empty-input guard),
refuting the claimed "empty iff no declarative sentence of ≥ 4 tokens". -/
theorem score_detailed_claims_cex :
    (scorerDefault.score_detailed "this sentence has five words." []).claims = [] ∧
    split_claims "this sentence has five words." ≠ [] := by
  decide

/-- Claim C8 as amended: `score_detailed` always returns a
`FaithfulnessReport`, whose fields are exactly `overall`, `semantic`,
`coverage`, `numeric`, `penalty` and `claims`; its `claims` list is empty
iff the response is empty, or the context list is empty, or the response
contains no declarative sentence of at least four tokens
(`split_claims` returns none). -/
theorem score_detailed_claims_iff (s : FaithfulnessScorer)
    (response : String) (context_chunks : List String) :
    (s.score_detailed response context_chunks).claims = [] ↔
      (response = "" ∨ context_chunks = [] ∨ split_claims response = []) := by
  by_cases h : response = "" ∨ context_chunks = []
  · simp only [FaithfulnessScorer.score_detailed, if_pos h]
    simp only [true_iff]
    rcases h with h | h
    · exact Or.inl h
    · exact Or.inr (Or.inl h)
  · simp only [FaithfulnessScorer.score_detailed, if_neg h]
    push_neg at h
    by_cases hc : (split_claims response).isEmpty
    · rw [List.isEmpty_iff] at hc
      simp [FaithfulnessScorer.score_claims, hc, h.1, h.2]
    · rw [List.isEmpty_iff] at hc
      simp only [FaithfulnessScorer.score_claims, List.isEmpty_iff, if_neg hc]
      obtain ⟨c, cs, hcs⟩ : ∃ c cs, split_claims response = c :: cs := by
        cases hsplit : split_claims response with
        | nil => exact absurd hsplit hc
        | cons c cs => exact ⟨c, cs, rfl⟩
      simp [hcs, h.1, h.2]

theorem score_empty_response (s : FaithfulnessScorer) (chunks : List String) :
    s.score "" chunks = 0 := by
  simp [FaithfulnessScorer.score]

theorem round4_zero : round4 0 = 0 := by
  rw [round4, roundTo_eq 4 0 0 (by norm_num) (by norm_num)]
  norm_num

/-- One failing iteration of the loop steps to the next attempt with the
retry counter set to `attempt + 1`. -/
theorem genLoop_step_fail (p : RAGPipeline) (ct : List String) (up : String)
    (attempt rem : ℕ) (st : LoopState)
    (h : p.scorer.score (p.llm_fn attempt SYSTEM_PROMPT up) ct < p.faithfulness_threshold) :
    genLoop p ct up attempt (rem + 1) st =
      genLoop p ct up (attempt + 1) rem
        { st with
            raw_answer := p.llm_fn attempt SYSTEM_PROMPT up,
            faithfulness := p.scorer.score (p.llm_fn attempt SYSTEM_PROMPT up) ct,
            passed := false, retries_used := attempt + 1,
            llm_calls := st.llm_calls + 1 } := by
  simp only [genLoop]
  rw [if_neg (not_le.mpr h)]

/-- When every remaining attempt scores below the threshold, the loop runs
all its iterations, keeps the last raw answer, never passes, and ends with
`retries_used = attempt + n + 1` (the source increments the counter on the
final failed attempt as well). -/
theorem genLoop_all_fail (p : RAGPipeline) (ct : List String) (up : String) :
    ∀ (n attempt : ℕ) (st : LoopState),
      (∀ k, k ≤ n → p.scorer.score (p.llm_fn (attempt + k) SYSTEM_PROMPT up) ct <
        p.faithfulness_threshold) →
      genLoop p ct up attempt (n + 1) st =
        { raw_answer := p.llm_fn (attempt + n) SYSTEM_PROMPT up,
          faithfulness := p.scorer.score (p.llm_fn (attempt + n) SYSTEM_PROMPT up) ct,
          passed := false,
          retries_used := attempt + n + 1,
          llm_calls := st.llm_calls + n + 1 } := by
  intro n
  induction n with
  | zero =>
    intro attempt st h
    have h0 := h 0 (le_refl 0)
    rw [Nat.add_zero] at h0
    rw [genLoop_step_fail p ct up attempt 0 st h0]
    simp only [genLoop, Nat.add_zero]
  | succ m ih =>
    intro attempt st h
    have h0 := h 0 (Nat.zero_le _)
    rw [Nat.add_zero] at h0
    rw [genLoop_step_fail p ct up attempt (m + 1) st h0]
    rw [ih (attempt + 1)
      { st with
          raw_answer := p.llm_fn attempt SYSTEM_PROMPT up,
          faithfulness := p.scorer.score (p.llm_fn attempt SYSTEM_PROMPT up) ct,
          passed := false, retries_used := attempt + 1, llm_calls := st.llm_calls + 1 }
      (fun k hk => by
        have hx := h (k + 1) (by omega)
        rwa [show attempt + (k + 1) = attempt + 1 + k from by omega] at hx)]
    have e1 : attempt + 1 + m = attempt + (m + 1) := by omega
    rw [e1]
    congr 1
    show st.llm_calls + 1 + m + 1 = st.llm_calls + (m + 1) + 1
    omega

/-- The retry counter never exceeds the attempt index plus the remaining
iterations. -/
theorem genLoop_retries_bound (p : RAGPipeline) (ct : List String) (up : String) :
    ∀ (rem attempt : ℕ) (st : LoopState), st.retries_used ≤ attempt →
      (genLoop p ct up attempt rem st).retries_used ≤ attempt + rem := by
  intro rem
  induction rem with
  | zero =>
    intro attempt st h
    simpa [genLoop] using h.trans (Nat.le_add_right _ 0)
  | succ n ih =>
    intro attempt st h
    simp only [genLoop]
    split
    · simpa using h.trans (by omega)
    · exact le_trans (ih (attempt + 1) _ (by simp)) (by omega)

/-- A run in which at least one chunk was retrieved and every attempt's
faithfulness score is strictly below the threshold ends with the fallback
answer, the last attempt's raw output, and `retries_used = max_retries + 1`. -/
theorem run_all_fail_spec (p : RAGPipeline) (query : String)
    (hchunks : retrieveChunks p.store ≠ [])
    (hfail : ∀ k, k ≤ p.max_retries →
      p.attemptScore query k < p.faithfulness_threshold) :
    (p.run query).answer = p.fallback_message ∧
    (p.run query).raw_answer =
      p.llm_fn p.max_retries SYSTEM_PROMPT (p.userPromptFor query) ∧
    (p.run query).retries_used = p.max_retries + 1 := by
  have hfail' : ∀ k, k ≤ p.max_retries →
      p.scorer.score
        (p.llm_fn (0 + k) SYSTEM_PROMPT
          (userPrompt (formatContext p.max_context_chars (retrieveChunks p.store)) query))
        ((retrieveChunks p.store).map RetrievedChunk.text) < p.faithfulness_threshold := by
    intro k hk
    have hx := hfail k hk
    simp only [RAGPipeline.attemptScore, RAGPipeline.userPromptFor,
      RAGPipeline.chunkTexts] at hx
    simpa [Nat.zero_add] using hx
  have hloop := genLoop_all_fail p
    ((retrieveChunks p.store).map RetrievedChunk.text)
    (userPrompt (formatContext p.max_context_chars (retrieveChunks p.store)) query)
    p.max_retries 0
    { raw_answer := "", faithfulness := 0, passed := false, retries_used := 0, llm_calls := 0 }
    hfail'
  simp only [RAGPipeline.run]
  rw [if_neg hchunks]
  rw [hloop]
  simp [RAGPipeline.userPromptFor, Nat.zero_add]

/-- Claim C1, counterexample: `pipelineOne` retrieves one chunk and every
attempt scores 0.0 (strictly below the threshold 0.70), but the returned
`retries_used` is `max_retries + 1 = 2`, not `max_retries = 1`: the source
also increments the counter on the final failed attempt. -/
theorem run_exhausted_retries_cex :
    retrieveChunks pipelineOne.store ≠ [] ∧
    (∀ k, k ≤ pipelineOne.max_retries →
      pipelineOne.attemptScore "q" k < pipelineOne.faithfulness_threshold) ∧
    (pipelineOne.run "q").retries_used ≠ pipelineOne.max_retries := by
  have hchunks : retrieveChunks pipelineOne.store ≠ [] := by decide
  have hfail : ∀ k, k ≤ pipelineOne.max_retries →
      pipelineOne.attemptScore "q" k < pipelineOne.faithfulness_threshold := by
    intro k hk
    simp only [RAGPipeline.attemptScore, pipelineOne]
    rw [score_empty_response]
    norm_num
  refine ⟨hchunks, hfail, ?_⟩
  rw [(run_all_fail_spec pipelineOne "q" hchunks hfail).2.2]
  decide

/-- Claim C1 as amended: for every run in which at least one chunk is
retrieved and every generation attempt's faithfulness score is strictly
below the configured threshold, the returned result has `answer` equal to
the fallback message, `raw_answer` equal to the output of the last
generation attempt, and `retries_used` equal to `max_retries + 1`. -/
theorem run_exhausted_fallback (p : RAGPipeline) (query : String)
    (hchunks : retrieveChunks p.store ≠ [])
    (hfail : ∀ k, k ≤ p.max_retries →
      p.attemptScore query k < p.faithfulness_threshold) :
    (p.run query).answer = p.fallback_message ∧
    (p.run query).raw_answer =
      p.llm_fn p.max_retries SYSTEM_PROMPT (p.userPromptFor query) ∧
    (p.run query).retries_used = p.max_retries + 1 :=
  run_all_fail_spec p query hchunks hfail

theorem run_exhausted_fallback_witness :
    (pipelineOne.run "q").answer = pipelineOne.fallback_message ∧
    (pipelineOne.run "q").raw_answer =
      pipelineOne.llm_fn pipelineOne.max_retries SYSTEM_PROMPT
        (pipelineOne.userPromptFor "q") ∧
    (pipelineOne.run "q").retries_used = pipelineOne.max_retries + 1 := by
  refine run_exhausted_fallback pipelineOne "q" (by decide) ?_
  intro k hk
  simp only [RAGPipeline.attemptScore, pipelineOne]
  rw [score_empty_response]
  norm_num

/-- Claim C2, counterexample: with `max_retries = 0` and a generation
collaborator whose output always scores 0.0, the run returns
`retries_used = 1 > max_retries`. -/
theorem run_retries_cex :
    ¬ ((pipelineTwo.run "q").retries_used ≤ pipelineTwo.max_retries) := by
  have hfail : ∀ k, k ≤ pipelineTwo.max_retries →
      pipelineTwo.attemptScore "q" k < pipelineTwo.faithfulness_threshold := by
    intro k hk
    simp only [RAGPipeline.attemptScore, pipelineTwo]
    rw [score_empty_response]
    norm_num
  rw [(run_all_fail_spec pipelineTwo "q" (by decide) hfail).2.2]
  decide

/-- Claim C2 as amended: for every query, the result returned by
`RAGPipeline.run` satisfies `retries_used ≤ max_retries + 1` (the bound
`max_retries` of the claim is reached and exceeded by one exactly when
every attempt fails, see the counterexample). -/
theorem run_retries_le_succ (p : RAGPipeline) (query : String) :
    (p.run query).retries_used ≤ p.max_retries + 1 := by
  simp only [RAGPipeline.run]
  split
  · simp
  · have hb := genLoop_retries_bound p
      ((retrieveChunks p.store).map RetrievedChunk.text)
      (userPrompt (formatContext p.max_context_chars (retrieveChunks p.store)) query)
      (p.max_retries + 1) 0
      { raw_answer := "", faithfulness := 0, passed := false, retries_used := 0, llm_calls := 0 }
      (by simp)
    simpa using hb

/-- Claim C3: when the vector store returns zero chunks, `run` returns the
fallback message as the answer, with `retries_used = 0`, and the generation
collaborator is never invoked (`llm_calls = 0`). -/
theorem run_no_chunks_fallback (p : RAGPipeline) (query : String)
    (h : p.store.documents = []) :
    (p.run query).answer = p.fallback_message ∧
    (p.run query).retries_used = 0 ∧
    (p.run query).llm_calls = 0 := by
  have hc : retrieveChunks p.store = [] := by
    simp [retrieveChunks, retrieveAux, h]
  simp [RAGPipeline.run, hc]

theorem run_no_chunks_fallback_witness :
    (pipelineEmpty.run "q").answer = pipelineEmpty.fallback_message ∧
    (pipelineEmpty.run "q").retries_used = 0 ∧
    (pipelineEmpty.run "q").llm_calls = 0 :=
  run_no_chunks_fallback pipelineEmpty "q" rfl

/-- Claim C10: when retrieval yields zero chunks, the returned result has
`raw_answer` equal to the fallback message (no raw model output exists and
the fallback text is put in both fields), `passed_faithfulness = false`,
and `faithfulness_score = 0.0`. -/
theorem run_no_chunks_raw_answer (p : RAGPipeline) (query : String)
    (h : p.store.documents = []) :
    (p.run query).raw_answer = p.fallback_message ∧
    (p.run query).passed_faithfulness = false ∧
    (p.run query).faithfulness_score = 0 := by
  have hc : retrieveChunks p.store = [] := by
    simp [retrieveChunks, retrieveAux, h]
  simp [RAGPipeline.run, hc, round4_zero]

theorem run_no_chunks_raw_answer_witness :
    (pipelineEmpty.run "ask").raw_answer = pipelineEmpty.fallback_message ∧
    (pipelineEmpty.run "ask").passed_faithfulness = false ∧
    (pipelineEmpty.run "ask").faithfulness_score = 0 :=
  run_no_chunks_raw_answer pipelineEmpty "ask" rfl

/-- The kept segments are an initial prefix of the labelled segments, in
retrieval-rank order and never cut mid-segment. -/
theorem formatParts_take (B : ℕ) (chunks : List RetrievedChunk) :
    formatParts B chunks = (chunks.map chunkSegment).take (formatParts B chunks).length := by
  induction chunks generalizing B with
  | nil => simp [formatParts]
  | cons c cs ih =>
    simp only [formatParts]
    by_cases h : (chunkSegment c).length > B
    · rw [if_pos h]
      simp
    · rw [if_neg h]
      rw [List.map_cons, List.length_cons, List.take_succ_cons]
      exact congrArg _ (ih _)

/-- The summed length of the kept segments never exceeds the budget. -/
theorem formatParts_sum_le (B : ℕ) (chunks : List RetrievedChunk) :
    ((formatParts B chunks).map String.length).sum ≤ B := by
  induction chunks generalizing B with
  | nil => simp [formatParts]
  | cons c cs ih =>
    simp only [formatParts]
    by_cases h : (chunkSegment c).length > B
    · rw [if_pos h]
      simp
    · rw [if_neg h]
      rw [List.map_cons, List.sum_cons]
      have := ih (B - (chunkSegment c).length)
      omega

/-- Construction stops at the first chunk whose segment exceeds the
remaining budget. -/
theorem formatParts_stop (B : ℕ) (chunks : List RetrievedChunk) :
    ∀ c, chunks[(formatParts B chunks).length]? = some c →
      B < ((formatParts B chunks).map String.length).sum + (chunkSegment c).length := by
  induction chunks generalizing B with
  | nil =>
    intro c hc
    simp [formatParts] at hc
  | cons c cs ih =>
    simp only [formatParts]
    by_cases h : (chunkSegment c).length > B
    · rw [if_pos h]
      intro x hx
      simp only [List.length_nil, List.getElem?_cons_zero, Option.some.injEq] at hx
      subst hx
      simpa using h
    · rw [if_neg h]
      intro x hx
      rw [List.length_cons, List.getElem?_cons_succ] at hx
      have := ih (B - (chunkSegment c).length) x hx
      rw [List.map_cons, List.sum_cons]
      omega

/-- Claim C6 as amended: the assembled context block is the kept segments
joined by blank lines; the kept segments are an initial prefix of the
per-chunk segments (retrieval-rank order, never a partial chunk);
construction stops at the first chunk whose segment would exceed the
remaining budget; and the total length of the kept segments (the separator
characters between them not counted) does not exceed `max_context_chars` —
the joined block itself can exceed the budget by the separators, see the
counterexample. -/
theorem format_context_spec (B : ℕ) (chunks : List RetrievedChunk) :
    formatContext B chunks = String.intercalate "\n\n" (formatParts B chunks) ∧
    formatParts B chunks = (chunks.map chunkSegment).take (formatParts B chunks).length ∧
    ((formatParts B chunks).map String.length).sum ≤ B ∧
    (∀ c, chunks[(formatParts B chunks).length]? = some c →
      B < ((formatParts B chunks).map String.length).sum + (chunkSegment c).length) :=
  ⟨rfl, formatParts_take B chunks, formatParts_sum_le B chunks, formatParts_stop B chunks⟩

/-- Claim C6, counterexample: the two retrieved chunks of `storeTwo` have
37-character segments (`"[Chunk chunk_0] (relevance 1.0)\naaaaa"`); both
fit a budget of 75 (37 ≤ 75, then 37 ≤ 38), but the assembled context
block is 76 characters long (the `"\n\n"` separator is not charged against
the budget), refuting "the total length of the assembled context block
does not exceed max_context_chars". -/
theorem format_context_length_cex :
    ¬ ((formatContext 75 (retrieveChunks storeTwo)).length ≤ 75) := by
  have hsc : round4 (1 / (1 + (0 : ℚ))) = 1 := by
    rw [round4, roundTo_eq 4 (1 / (1 + (0 : ℚ))) 10000 (by norm_num) (by norm_num)]
    norm_num
  have hstep : retrieveChunks storeTwo =
      [{ chunk_id := "chunk_0", text := "aaaaa", score := round4 (1 / (1 + (0 : ℚ))),
         metadata := [] },
       { chunk_id := "chunk_1", text := "bbbbb", score := round4 (1 / (1 + (0 : ℚ))),
         metadata := [] }] := rfl
  rw [hstep, hsc]
  decide

theorem roundTo_natCast (k : ℕ) (n : ℕ) : roundTo k ((n : ℚ)) = (n : ℚ) := by
  rw [roundTo_eq k ((n : ℚ)) ((n : ℤ) * (10 : ℤ) ^ k)
    (by push_cast; linarith) (by push_cast; linarith)]
  push_cast
  field_simp

/-- The spec's concrete example evaluated: on `[1.0 .. 100.0]` the code
returns p50 = 50, p90 = 90, p95 = 95, p99 = 99 and mean = 50.5. -/
theorem latencyExample_stats :
    latency_percentiles latencyExample =
      { p50 := 50, p90 := 90, p95 := 95, p99 := 99, mean := 101 / 2 } := by
  have hL : latencyExample ≠ [] := by decide
  have hsort : sortList latencyExample = latencyExample := by decide
  have hlen : latencyExample.length = 100 := by decide
  have hidx50 : percentileIdx 50 100 = 49 := by
    simp only [percentileIdx]
    rw [show ((100 - 1 : ℕ) : ℚ) = 99 from by norm_num,
      show ⌊(50 : ℚ) / 100 * 99⌋ = 49 from Int.floor_eq_iff.mpr (by norm_num)]
    decide
  have hidx90 : percentileIdx 90 100 = 89 := by
    simp only [percentileIdx]
    rw [show ((100 - 1 : ℕ) : ℚ) = 99 from by norm_num,
      show ⌊(90 : ℚ) / 100 * 99⌋ = 89 from Int.floor_eq_iff.mpr (by norm_num)]
    decide
  have hidx95 : percentileIdx 95 100 = 94 := by
    simp only [percentileIdx]
    rw [show ((100 - 1 : ℕ) : ℚ) = 99 from by norm_num,
      show ⌊(95 : ℚ) / 100 * 99⌋ = 94 from Int.floor_eq_iff.mpr (by norm_num)]
    decide
  have hidx99 : percentileIdx 99 100 = 98 := by
    simp only [percentileIdx]
    rw [show ((100 - 1 : ℕ) : ℚ) = 99 from by norm_num,
      show ⌊(99 : ℚ) / 100 * 99⌋ = 98 from Int.floor_eq_iff.mpr (by norm_num)]
    decide
  have hget49 : latencyExample.getD 49 0 = ((50 : ℕ) : ℚ) := by decide
  have hget89 : latencyExample.getD 89 0 = ((90 : ℕ) : ℚ) := by decide
  have hget94 : latencyExample.getD 94 0 = ((95 : ℕ) : ℚ) := by decide
  have hget98 : latencyExample.getD 98 0 = ((99 : ℕ) : ℚ) := by decide
  have hsum : latencyExample.sum = 5050 := by
    have hns : ((List.range 100).map (fun i => i + 1)).sum = 5050 := by decide
    show ((List.range 100).map (fun i => ((i + 1 : ℕ) : ℚ))).sum = 5050
    rw [show (fun i : ℕ => ((i + 1 : ℕ) : ℚ)) = (fun n : ℕ => (n : ℚ)) ∘ (fun i : ℕ => i + 1)
      from rfl]
    rw [← List.map_map, ← Nat.cast_list_sum, hns]
    norm_num
  simp only [latency_percentiles, if_neg hL]
  rw [hsort, hlen, hidx50, hidx90, hidx95, hidx99, hget49, hget89, hget94, hget98, hsum]
  have hr : ∀ n : ℕ, round2 ((n : ℚ)) = (n : ℚ) := fun n => roundTo_natCast 2 n
  rw [hr 50, hr 90, hr 95, hr 99]
  rw [show (5050 : ℚ) / ((100 : ℕ) : ℚ) = 101 / 2 from by norm_num]
  rw [show round2 ((101 : ℚ) / 2) = 101 / 2 from by
    rw [round2, roundTo_eq 2 ((101 : ℚ) / 2) 5050 (by norm_num) (by norm_num)]
    norm_num]
  simp only [LatencyStats.mk.injEq]
  norm_num

/-- Claim C7 as amended: on the empty list all fields are zero; on a
non-empty list each percentile field is the element of the sorted copy at
index `min(floor(pct/100 * (n-1)), n-1)` rounded to two decimals, and the
mean field is the mean rounded to two decimals; on `[1..100]` the result
is p50 = 50, p90 = 90, p99 = 99, mean = 50.5 (there the rounding is the
identity). -/
theorem latency_percentiles_spec :
    latency_percentiles [] = { p50 := 0, p90 := 0, p95 := 0, p99 := 0, mean := 0 } ∧
    (∀ l : List ℚ, l ≠ [] →
      latency_percentiles l =
        { p50 := round2 ((sortList l).getD
            (min (Int.toNat ⌊(50 : ℚ) / 100 * (((sortList l).length - 1 : ℕ) : ℚ)⌋)
              ((sortList l).length - 1)) 0),
          p90 := round2 ((sortList l).getD
            (min (Int.toNat ⌊(90 : ℚ) / 100 * (((sortList l).length - 1 : ℕ) : ℚ)⌋)
              ((sortList l).length - 1)) 0),
          p95 := round2 ((sortList l).getD
            (min (Int.toNat ⌊(95 : ℚ) / 100 * (((sortList l).length - 1 : ℕ) : ℚ)⌋)
              ((sortList l).length - 1)) 0),
          p99 := round2 ((sortList l).getD
            (min (Int.toNat ⌊(99 : ℚ) / 100 * (((sortList l).length - 1 : ℕ) : ℚ)⌋)
              ((sortList l).length - 1)) 0),
          mean := round2 ((sortList l).sum / ((sortList l).length : ℚ)) }) ∧
    (latency_percentiles latencyExample).p50 = 50 ∧
    (latency_percentiles latencyExample).p90 = 90 ∧
    (latency_percentiles latencyExample).p99 = 99 ∧
    (latency_percentiles latencyExample).mean = 101 / 2 := by
  refine ⟨by simp [latency_percentiles], ?_, ?_, ?_, ?_, ?_⟩
  · intro l hl
    simp only [latency_percentiles, if_neg hl, percentileIdx]
  · rw [latencyExample_stats]
  · rw [latencyExample_stats]
  · rw [latencyExample_stats]
  · rw [latencyExample_stats]

/-- Claim C7, counterexample: on the input `[1/3]` every index is 0 and
the claimed return value is the element `1/3` itself, but the code rounds
to two decimals and returns `0.33`. -/
theorem latency_percentiles_round_cex :
    (latency_percentiles [(1 : ℚ) / 3]).p50 ≠ (1 : ℚ) / 3 := by
  have h : (latency_percentiles [(1 : ℚ) / 3]).p50 = 33 / 100 := by
    simp only [latency_percentiles,
      if_neg (by exact List.cons_ne_nil _ _ : ¬([(1 : ℚ) / 3] = []))]
    rw [show sortList [(1 : ℚ) / 3] = [(1 : ℚ) / 3] from rfl,
      show ([(1 : ℚ) / 3]).length = 1 from rfl,
      show percentileIdx 50 1 = 0 from by simp [percentileIdx],
      show ([(1 : ℚ) / 3]).getD 0 0 = (1 : ℚ) / 3 from rfl,
      round2, roundTo_eq 2 ((1 : ℚ) / 3) 33 (by norm_num) (by norm_num)]
    norm_num
  rw [h]
  norm_num
